import Mathlib

/-!
# Verification of the DVD-o-matic per-frame J2K encoding core

Shallow embedding of `src/lib/dcp_video_frame.cc`: the colour transform
pipeline, codec-parameter derivation, the local/remote encode paths, the
file publication step of `EncodedData::write`, and the wire protocol of
`EncodedData::send` / `DCPVideoFrame::encode_remotely`.

C `double` arithmetic is modelled by exact rationals (`Rat`); the cast
`(int) d` of a `double` is modelled by truncation toward zero.  Machine
integers are modelled by `Int`/`Nat`.  External collaborators (the
libopenjpeg codec, the filesystem, the socket) are modelled by explicit
oracle inputs or byte streams.
-/

/-- Truncation toward zero of a rational, the semantics of the C cast
`(int) d` for a `double` within range: t-division of the numerator by
the denominator truncates toward zero. -/
def ratTrunc (q : Rat) : Int := Int.tdiv q.num (q.den : Int)

/-- The colour lookup tables and constants of `lut.h` (`lut_in`,
`color_matrix`, `lut_out[LO_DCI]`, `DCI_COEFFICENT`, `DCI_LUT_SIZE`).
`lut.h` is outside this subsystem's sources, so the tables are abstracted
as total functions; every theorem below holds for all tables. -/
structure ColourTables where
  lutIn : Nat → Nat → Rat
  matrix : Nat → Fin 3 → Fin 3 → Rat
  lutOutDCI : Int → Int
  dciCoefficient : Rat
  dciLutSize : Nat

/-- The body of the per-pixel loop of `DCPVideoFrame::encode_locally`
(dcp_video_frame.cc lines 175-195): in-gamma LUT on each channel byte
shifted left 4 bits, the 3x3 RGB-to-XYZ matrix, DCI companding by
`DCI_COEFFICENT * (DCI_LUT_SIZE - 1)`, and the out-gamma LUT indexed by
the value cast to `int` (truncation toward zero). -/
def xyzOfRGB (t : ColourTables) (idx : Nat) (rgb : Nat × Nat × Nat) :
    Int × Int × Int :=
  let sr := t.lutIn idx (rgb.1 <<< 4)
  let sg := t.lutIn idx (rgb.2.1 <<< 4)
  let sb := t.lutIn idx (rgb.2.2 <<< 4)
  let dx := sr * t.matrix idx 0 0 + sg * t.matrix idx 0 1 + sb * t.matrix idx 0 2
  let dy := sr * t.matrix idx 1 0 + sg * t.matrix idx 1 1 + sb * t.matrix idx 1 2
  let dz := sr * t.matrix idx 2 0 + sg * t.matrix idx 2 1 + sb * t.matrix idx 2 2
  let cx := dx * t.dciCoefficient * ((t.dciLutSize : Rat) - 1)
  let cy := dy * t.dciCoefficient * ((t.dciLutSize : Rat) - 1)
  let cz := dz * t.dciCoefficient * ((t.dciLutSize : Rat) - 1)
  (t.lutOutDCI (ratTrunc cx), t.lutOutDCI (ratTrunc cy), t.lutOutDCI (ratTrunc cz))

/-- The whole conversion loop of `encode_locally` over the prepared RGB
image: the interleaved buffer is walked three bytes at a time, one
XYZ triple per pixel (one scalar per pixel per component). -/
def convertFrameToXYZ (t : ColourTables) (idx : Nat)
    (pixels : List (Nat × Nat × Nat)) : List (Int × Int × Int) :=
  pixels.map (xyzOfRGB t idx)

/-- Spec step (1): expand each 8-bit channel through the profile-selected
input gamma table, the byte shifted left 4 bits before the lookup. -/
def specInGamma (t : ColourTables) (idx : Nat) (rgb : Nat × Nat × Nat) :
    Rat × Rat × Rat :=
  (t.lutIn idx (rgb.1 <<< 4), t.lutIn idx (rgb.2.1 <<< 4), t.lutIn idx (rgb.2.2 <<< 4))

/-- Spec step (2): apply the 3x3 RGB-to-XYZ matrix selected by the same
LUT index. -/
def specMatrixMul (t : ColourTables) (idx : Nat) (s : Rat × Rat × Rat) :
    Rat × Rat × Rat :=
  (s.1 * t.matrix idx 0 0 + s.2.1 * t.matrix idx 0 1 + s.2.2 * t.matrix idx 0 2,
   s.1 * t.matrix idx 1 0 + s.2.1 * t.matrix idx 1 1 + s.2.2 * t.matrix idx 1 2,
   s.1 * t.matrix idx 2 0 + s.2.1 * t.matrix idx 2 1 + s.2.2 * t.matrix idx 2 2)

/-- Spec step (3): DCI companding, each of X, Y, Z multiplied by the DCI
device constant times (companding table size minus 1). -/
def specDCICompand (t : ColourTables) (d : Rat × Rat × Rat) : Rat × Rat × Rat :=
  (d.1 * t.dciCoefficient * ((t.dciLutSize : Rat) - 1),
   d.2.1 * t.dciCoefficient * ((t.dciLutSize : Rat) - 1),
   d.2.2 * t.dciCoefficient * ((t.dciLutSize : Rat) - 1))

/-- Spec step (4): truncate toward zero and index the DCI output gamma
table, yielding one scalar per component. -/
def specOutGamma (t : ColourTables) (c : Rat × Rat × Rat) : Int × Int × Int :=
  (t.lutOutDCI (ratTrunc c.1), t.lutOutDCI (ratTrunc c.2.1), t.lutOutDCI (ratTrunc c.2.2))

/-- C1: for every pixel of the prepared RGB image and every colour-LUT
index, the local encoder computes the 12-bit XYZ triple by exactly the
four spec steps in order: input gamma lookup on each byte shifted left 4
bits, the 3x3 RGB-to-XYZ matrix, DCI companding by the device constant
times (table size minus 1), and truncation toward zero into the DCI
output gamma table. -/
theorem C1_colour_pipeline_steps (t : ColourTables) (idx : Nat)
    (pixels : List (Nat × Nat × Nat)) (i : Nat) (px : Nat × Nat × Nat)
    (h : pixels[i]? = some px) :
    (convertFrameToXYZ t idx pixels)[i]? =
      some (specOutGamma t (specDCICompand t (specMatrixMul t idx (specInGamma t idx px)))) := by
  simp only [convertFrameToXYZ, List.getElem?_map, h, Option.map_some']
  rfl

/-- Witness for C1 at a concrete one-pixel image and concrete tables. -/
theorem C1_colour_pipeline_steps_witness :
    letI t : ColourTables :=
      { lutIn := fun _ j => (j : Rat) / 4096,
        matrix := fun _ _ _ => 1,
        lutOutDCI := fun v => v,
        dciCoefficient := 48 / 53,
        dciLutSize := 4096 }
    (convertFrameToXYZ t 0 [(255, 0, 10)])[0]? =
      some (specOutGamma t (specDCICompand t (specMatrixMul t 0 (specInGamma t 0 (255, 0, 10))))) :=
  C1_colour_pipeline_steps _ 0 [(255, 0, 10)] 0 (255, 0, 10) rfl

/-- C2: the colour transform is a deterministic pure function of the
triple and the LUT index — two evaluations agree — and the final
output-table index is obtained by truncation toward zero of the companded
value, with no other rounding step. -/
theorem C2_colour_transform_deterministic (t : ColourTables) (idx r g b : Nat)
    (hr : r < 256) (hg : g < 256) (hb : b < 256) :
    xyzOfRGB t idx (r, g, b) = xyzOfRGB t idx (r, g, b) ∧
    xyzOfRGB t idx (r, g, b) =
      specOutGamma t (specDCICompand t (specMatrixMul t idx (specInGamma t idx (r, g, b)))) := by
  exact ⟨rfl, rfl⟩

/-- Witness for C2 at the boundary triple (0, 255, 128). -/
theorem C2_colour_transform_deterministic_witness :
    letI t : ColourTables :=
      { lutIn := fun _ j => (j : Rat) / 4096,
        matrix := fun _ _ _ => 1,
        lutOutDCI := fun v => v,
        dciCoefficient := 48 / 53,
        dciLutSize := 4096 }
    xyzOfRGB t 2 (0, 255, 128) = xyzOfRGB t 2 (0, 255, 128) ∧
    xyzOfRGB t 2 (0, 255, 128) =
      specOutGamma t (specDCICompand t (specMatrixMul t 2 (specInGamma t 2 (0, 255, 128)))) :=
  C2_colour_transform_deterministic _ 2 0 255 128 (by decide) (by decide) (by decide)

/-! ## Codec parameter derivation (dcp_video_frame.cc lines 198-200) -/

/-- Line 199: `int const max_cs_len = ((float) _j2k_bandwidth) / 8 / _frames_per_second;`
The exact quotient `bandwidth / 8 / frame_rate` assigned to an `int`,
i.e. truncated toward zero: t-division by `8 * frame_rate`.  (At
`frame_rate = 0` the C float division yields infinity and the `int`
conversion is undefined; Lean t-division by zero returns 0.) -/
def maxCsLenCalc (bw fps : Int) : Int := Int.tdiv bw (8 * fps)

/-- Line 200: `int const max_comp_size = max_cs_len / 1.25;` — the exact
quotient by 5/4, truncated toward zero: t-division of `4 * max_cs_len`
by 5. -/
def maxCompSizeCalc (csLen : Int) : Int := Int.tdiv (csLen * 4) 5

/-- The error kinds the spec names.  `exceptions.h` defines `EncodeError`,
`NetworkError` and `WriteFileError` (the latter carrying a path and the OS
`errno` value); the spec also names an `InvalidParameter` error, which has
no counterpart anywhere in the sources — the constructor exists here only
so that its absence from every code path can be stated. -/
inductive DCPError
  | encodeError (msg : String)
  | invalidParameter
  | networkError (msg : String)
  | writeFileError (path : String) (osError : Nat)
deriving DecidableEq

/-- A byte buffer plus its length.  `localData` is the codec-owned variant
(`LocallyEncodedData`, pointing into the codec's `_cio->buffer`);
`remoteData` is the receive-allocated variant (`RemotelyEncodedData`,
`new uint8_t[s]`). -/
inductive EncodedData
  | localData (bytes : List Nat)
  | remoteData (bytes : List Nat)
deriving DecidableEq

def EncodedData.bytes : EncodedData → List Nat
  | .localData b => b
  | .remoteData b => b

/-- `_size`: always the number of valid bytes. -/
def EncodedData.size (e : EncodedData) : Nat := e.bytes.length

/-- One image plane: `line_size()[i]`, `lines(i)` and `data()[i]`. -/
structure PlaneModel where
  lineSize : Int
  lines : Int
  bytes : List Nat

/-- The parts of `Image` that `encode_remotely` reads: `size()`,
`pixel_format()` (an enum, printed as its integer value) and the planes. -/
structure ImageModel where
  width : Int
  height : Int
  pixFmt : Int
  planes : List PlaneModel

/-- The fields captured by the `DCPVideoFrame` constructor
(dcp_video_frame.cc lines 77-96): input image, output size, padding,
scaler id, frame index, frame rate (already rounded to an integer by
`rint`), post-process string, and the `clut` / `bw` arguments stored into
`_colour_lut_index` / `_j2k_bandwidth`. -/
structure DCPVideoFrameRec where
  input : ImageModel
  outWidth : Int
  outHeight : Int
  padding : Int
  scalerId : String
  frame : Int
  framesPerSecond : Int
  postProcess : String
  colourLutIndex : Int
  j2kBandwidth : Int

/-- The per-job rate-control fields derived at lines 198-200 and stored
into `opj_cparameters_t` (line 249 sets `max_comp_size`; `max_cs_len`
feeds the `tcp_rates` target). -/
structure OpjParams where
  maxCsLen : Int
  maxCompSize : Int
deriving DecidableEq

/-- Results of the external libopenjpeg calls inside `encode_locally`:
whether `opj_image_create` returned a non-null container, whether
`opj_encode` returned a non-zero success code, and the codestream bytes
left in `_cio->buffer` (length `cio_tell`). -/
structure EncodeOracle where
  imageCreated : Bool
  encodeOk : Bool
  codecBuffer : List Nat

/-- `DCPVideoFrame::encode_locally` (lines 150-285): create the openjpeg
container (line 114: throws `EncodeError "could not create libopenjpeg
image"` when `opj_image_create` returns null), convert the prepared RGB
pixels to XYZ, derive the rate parameters, run `opj_encode` (line 270:
throws `EncodeError "jpeg2000 encoding failed"` when it returns 0), and
on success return the codec-owned buffer.  `prepared` is the
post-processed, scaled RGB image (`Image::post_process` and
`Image::scale_and_convert_to_rgb` are external collaborators). -/
def encodeLocally (j : DCPVideoFrameRec) (t : ColourTables)
    (prepared : List (Nat × Nat × Nat)) (o : EncodeOracle) :
    Except DCPError (List (Int × Int × Int) × OpjParams × EncodedData) :=
  if o.imageCreated = false then
    .error (.encodeError "could not create libopenjpeg image")
  else if o.encodeOk = false then
    .error (.encodeError "jpeg2000 encoding failed")
  else
    .ok (convertFrameToXYZ t j.colourLutIndex.toNat prepared,
         { maxCsLen := maxCsLenCalc j.j2kBandwidth j.framesPerSecond,
           maxCompSize := maxCompSizeCalc (maxCsLenCalc j.j2kBandwidth j.framesPerSecond) },
         .localData o.codecBuffer)

/-! ## Concrete sample inputs used by witnesses and counterexamples -/

def samplePlane : PlaneModel :=
  { lineSize := 4, lines := 2, bytes := [0, 1, 2, 3, 4, 5, 6, 7] }

def sampleImage : ImageModel :=
  { width := 4, height := 2, pixFmt := 2, planes := [samplePlane] }

def sampleJob : DCPVideoFrameRec :=
  { input := sampleImage, outWidth := 4, outHeight := 2, padding := 0,
    scalerId := "bicubic", frame := 0, framesPerSecond := 24,
    postProcess := "", colourLutIndex := 0, j2kBandwidth := 125000000 }

/-- A job whose frame rate rounded to 0 (e.g. an `fps` constructor
argument of 0.4). -/
def fpsZeroJob : DCPVideoFrameRec := { sampleJob with framesPerSecond := 0 }

def sampleTables : ColourTables :=
  { lutIn := fun _ j => (j : Rat) / 4096,
    matrix := fun _ _ _ => 1,
    lutOutDCI := fun v => v,
    dciCoefficient := 48 / 53,
    dciLutSize := 4096 }

def exceptOk {ε α : Type} : Except ε α → Bool
  | .ok _ => true
  | .error _ => false

deriving instance DecidableEq for Except

/-! ## C3, C4, C5 -/

/-- C4: what the code actually does at frame rate 0.  The embedded
`encode_locally` performs the parameter derivation with no guard and
never raises `InvalidParameter` (no such exception exists anywhere in
`exceptions.h`); with a successful codec oracle the call returns
normally.  In the C code the float division `bandwidth / 8 / 0` yields
infinity and its conversion to `int` is undefined behaviour. -/
theorem C4_fps_zero_no_invalid_parameter :
    encodeLocally fpsZeroJob sampleTables [] ⟨true, true, [7]⟩ ≠
      Except.error DCPError.invalidParameter ∧
    exceptOk (encodeLocally fpsZeroJob sampleTables [] ⟨true, true, [7]⟩) = true ∧
    (∀ o : EncodeOracle,
      encodeLocally fpsZeroJob sampleTables [] o ≠ Except.error DCPError.invalidParameter) := by
  refine ⟨fun hh => Except.noConfusion hh, rfl, ?_⟩
  intro o
  rcases o with ⟨ic, eo, buf⟩
  cases ic with
  | false => exact fun hh => DCPError.noConfusion (Except.error.inj hh)
  | true =>
      cases eo with
      | false => exact fun hh => DCPError.noConfusion (Except.error.inj hh)
      | true => exact fun hh => Except.noConfusion hh

/-- C5: local encoding raises `EncodeError` if and only if the codec
image container cannot be created or the compression step returns a
zero success code; on success it returns the codec-owned
(`LocallyEncodedData`) buffer. -/
theorem C5_encode_error_iff (j : DCPVideoFrameRec) (t : ColourTables)
    (prepared : List (Nat × Nat × Nat)) (o : EncodeOracle) :
    ((∃ msg, encodeLocally j t prepared o = .error (.encodeError msg)) ↔
      (o.imageCreated = false ∨ o.encodeOk = false)) ∧
    (o.imageCreated = true → o.encodeOk = true →
      encodeLocally j t prepared o =
        .ok (convertFrameToXYZ t j.colourLutIndex.toNat prepared,
          ⟨maxCsLenCalc j.j2kBandwidth j.framesPerSecond,
           maxCompSizeCalc (maxCsLenCalc j.j2kBandwidth j.framesPerSecond)⟩,
          EncodedData.localData o.codecBuffer)) := by
  rcases o with ⟨ic, eo, buf⟩
  cases ic with
  | false =>
      exact ⟨⟨fun _ => Or.inl rfl, fun _ => ⟨"could not create libopenjpeg image", rfl⟩⟩,
        fun hic => Bool.noConfusion hic⟩
  | true =>
      cases eo with
      | false =>
          exact ⟨⟨fun _ => Or.inr rfl, fun _ => ⟨"jpeg2000 encoding failed", rfl⟩⟩,
            fun _ heo => Bool.noConfusion heo⟩
      | true =>
          refine ⟨⟨fun hex => ?_, fun hor => ?_⟩, fun _ _ => rfl⟩
          · obtain ⟨msg, hm⟩ := hex
            exact Except.noConfusion hm
          · rcases hor with hh | hh <;> exact Bool.noConfusion hh

/-- Witness for C5 with a succeeding codec oracle. -/
theorem C5_encode_error_iff_witness :
    ((∃ msg, encodeLocally sampleJob sampleTables [] ⟨true, true, [9]⟩ =
        .error (.encodeError msg)) ↔
      ((EncodeOracle.mk true true [9]).imageCreated = false ∨
       (EncodeOracle.mk true true [9]).encodeOk = false)) ∧
    ((EncodeOracle.mk true true [9]).imageCreated = true →
     (EncodeOracle.mk true true [9]).encodeOk = true →
      encodeLocally sampleJob sampleTables [] ⟨true, true, [9]⟩ =
        .ok (convertFrameToXYZ sampleTables sampleJob.colourLutIndex.toNat [],
          ⟨maxCsLenCalc sampleJob.j2kBandwidth sampleJob.framesPerSecond,
           maxCompSizeCalc (maxCsLenCalc sampleJob.j2kBandwidth sampleJob.framesPerSecond)⟩,
          EncodedData.localData [9])) :=
  C5_encode_error_iff sampleJob sampleTables [] ⟨true, true, [9]⟩

/-! ## EncodedData::write (dcp_video_frame.cc lines 355-371) -/

/-- The contents of the two paths `EncodedData::write` touches: the
temporary file and the final frame file (`none` = absent). -/
structure FSState where
  tmpFile : Option (List Nat)
  finalFile : Option (List Nat)
deriving DecidableEq

/-- Modelled from the spec: `Options::frame_out_path (frame, tmp)` lives
in options.h, outside these sources; per the spec the temporary path is
the final path with `.tmp` appended (a `.tmp` sibling of
`<frame_index padded>.j2c`). -/
def tmpPathOf (finalPath : String) : String := finalPath ++ ".tmp"

/-- What the OS does underneath one call of `EncodedData::write`: whether
`fopen (tmp, "wb")` fails, with which `errno`, and how many bytes
`fwrite` actually writes — the code ignores `fwrite`'s return value. -/
structure WriteOracle where
  fopenErrno : Option Nat
  bytesWritten : Nat

/-- `EncodedData::write` (lines 355-371): `fopen` the temporary path,
throwing `WriteFileError (tmp_j2k, errno)` when it returns null;
`fwrite` the buffer (return value unchecked); `fclose`; then
`filesystem::rename` the temporary file onto the final path. -/
def encodedDataWrite (buf : List Nat) (finalPath : String) (o : WriteOracle)
    (fs : FSState) : Except DCPError FSState :=
  match o.fopenErrno with
  | some e => .error (.writeFileError (tmpPathOf finalPath) e)
  | none => .ok { tmpFile := none, finalFile := some (buf.take o.bytesWritten) }

/-- The filesystem states a reader can observe during
`EncodedData::write`: initial, after `fopen` (the temporary truncated to
empty), after `fwrite`, and after the rename — the single step that
changes the final path. -/
def encodedDataWriteStates (buf : List Nat) (o : WriteOracle) (fs : FSState) :
    List FSState :=
  match o.fopenErrno with
  | some _ => [fs]
  | none =>
      [fs,
       { fs with tmpFile := some [] },
       { fs with tmpFile := some (buf.take o.bytesWritten) },
       { tmpFile := none, finalFile := some (buf.take o.bytesWritten) }]

/-- C6 counterexample: when `fwrite` writes only 1 of 3 bytes (a failed
write, e.g. disk full), `EncodedData::write` raises no `WriteFileError`
— `fwrite`'s return value is ignored — and the truncated temporary file
is still renamed onto the final path, where every later reader sees a
partially-written final file. -/
theorem C6_short_write_counterexample :
    encodedDataWrite [1, 2, 3] "00000001.j2c" ⟨none, 1⟩ ⟨none, none⟩ =
      .ok ⟨none, some [1]⟩ ∧
    some ([1] : List Nat) ≠ some [1, 2, 3] := by
  decide

/-- C6 amended: `write` publishes through the temporary sibling path and
a single atomic rename — the final path is unchanged in every state
before the rename — and fails with `WriteFileError` carrying the OS
error code exactly when the temporary file cannot be opened; a short or
failed `fwrite` is not detected, and whatever prefix reached the
temporary file is renamed onto the final path (the complete buffer
whenever the write is full). -/
theorem C6_write_tmp_then_rename (buf : List Nat) (finalPath : String)
    (o : WriteOracle) (fs : FSState) :
    (∀ e, encodedDataWrite buf finalPath o fs =
        .error (.writeFileError (tmpPathOf finalPath) e) ↔ o.fopenErrno = some e) ∧
    (o.fopenErrno = none →
      encodedDataWrite buf finalPath o fs =
        .ok { tmpFile := none, finalFile := some (buf.take o.bytesWritten) }) ∧
    (∀ s ∈ (encodedDataWriteStates buf o fs).dropLast, s.finalFile = fs.finalFile) ∧
    (o.fopenErrno = none → buf.length ≤ o.bytesWritten →
      encodedDataWrite buf finalPath o fs =
        .ok { tmpFile := none, finalFile := some buf }) := by
  rcases o with ⟨fe, bw⟩
  cases fe with
  | none =>
      refine ⟨by simp [encodedDataWrite], by simp [encodedDataWrite], ?_, ?_⟩
      · intro s hs
        simp only [encodedDataWriteStates, List.dropLast, List.mem_cons,
          List.not_mem_nil, or_false] at hs
        rcases hs with rfl | rfl | rfl <;> rfl
      · intro _ hlen
        simp [encodedDataWrite, List.take_of_length_le hlen]
  | some e0 =>
      refine ⟨by simp [encodedDataWrite], by simp, ?_, by simp⟩
      intro s hs
      simp only [encodedDataWriteStates, List.dropLast, List.not_mem_nil] at hs

/-- Witness for C6's amended theorem: a full 3-byte write publishes the
complete buffer at the final path. -/
theorem C6_write_tmp_then_rename_witness :
    encodedDataWrite [1, 2, 3] "00000001.j2c" ⟨none, 3⟩ ⟨none, none⟩ =
      .ok { tmpFile := none, finalFile := some [1, 2, 3] } :=
  (C6_write_tmp_then_rename [1, 2, 3] "00000001.j2c" ⟨none, 3⟩ ⟨none, none⟩).2.2.2
    rfl (by decide)

/-! ## Decimal serialization and C atoi -/

/-- Little-endian decimal digits of `n`, with structural fuel
(`fuel ≥ n` suffices). -/
def decDigitsAux : Nat → Nat → List Nat
  | _, 0 => []
  | 0, _ + 1 => []
  | fuel + 1, n + 1 => ((n + 1) % 10) :: decDigitsAux fuel ((n + 1) / 10)

/-- The decimal digit string a C++ ostream prints for a nonnegative
integer — most significant digit first, "0" for 0 — as ASCII bytes. -/
def natToDecBytes (n : Nat) : List Nat :=
  if n = 0 then [48] else (decDigitsAux n n).reverse.map (fun d => d + 48)

/-- `operator<<` on a possibly negative `int`. -/
def intToDecBytes : Int → List Nat
  | Int.ofNat n => natToDecBytes n
  | Int.negSucc m => 45 :: natToDecBytes (m + 1)

def isDigitByte (b : Nat) : Bool := 48 ≤ b && b ≤ 57

/-- The digit-consuming loop of C `atoi`: accumulate decimal digits,
stop at the first non-digit byte. -/
def parseDecAux (acc : Nat) : List Nat → Nat
  | [] => acc
  | b :: rest =>
      if isDigitByte b then parseDecAux (acc * 10 + (b - 48)) rest else acc

def isSpaceByte (b : Nat) : Bool := b == 32 || (9 ≤ b && b ≤ 13)

def cAtoiCore : List Nat → Int
  | [] => 0
  | b :: rest =>
      if b = 43 then (parseDecAux 0 rest : Int)
      else if b = 45 then -(parseDecAux 0 rest : Int)
      else (parseDecAux 0 (b :: rest) : Int)

/-- C `atoi`: skip leading whitespace, take an optional sign, then
consume decimal digits; anything else — including an empty string —
parses as 0. -/
def cAtoi (bs : List Nat) : Int := cAtoiCore (bs.dropWhile isSpaceByte)

theorem decDigitsAux_eq_digits (fuel : Nat) :
    ∀ n, n ≤ fuel → decDigitsAux fuel n = Nat.digits 10 n := by
  induction fuel with
  | zero =>
      intro n hn
      obtain rfl := Nat.le_zero.mp hn
      rw [Nat.digits_zero]
      rfl
  | succ f ih =>
      intro n hn
      cases n with
      | zero =>
          rw [Nat.digits_zero]
          rfl
      | succ m =>
          rw [decDigitsAux, Nat.digits_def' (by decide : (1:Nat) < 10) (Nat.succ_pos m)]
          congr 1
          have hlt : (m + 1) / 10 < m + 1 := Nat.div_lt_self (Nat.succ_pos m) (by decide)
          exact ih _ (by omega)

theorem natToDecBytes_eq_digits (n : Nat) (h : n ≠ 0) :
    natToDecBytes n = (Nat.digits 10 n).reverse.map (fun d => d + 48) := by
  rw [natToDecBytes, if_neg h, decDigitsAux_eq_digits n n (le_refl n)]

theorem natToDecBytes_no_nul (n : Nat) : ∀ b ∈ natToDecBytes n, b ≠ 0 := by
  intro b hb
  rw [natToDecBytes] at hb
  by_cases h0 : n = 0
  · rw [if_pos h0] at hb
    obtain rfl := List.eq_of_mem_singleton hb
    omega
  · rw [if_neg h0] at hb
    obtain ⟨d, -, rfl⟩ := List.mem_map.mp hb
    omega

theorem foldl_step_reverse (ds : List Nat) (a : Nat) :
    ds.reverse.foldl (fun x d => x * 10 + d) a =
      a * 10 ^ ds.length + Nat.ofDigits 10 ds := by
  induction ds generalizing a with
  | nil => simp
  | cons d tl ih =>
      simp only [List.reverse_cons, List.foldl_append, List.foldl_cons,
        List.foldl_nil, ih, Nat.ofDigits_cons, List.length_cons]
      ring

theorem parseDecAux_digit_map (ds : List Nat) (a : Nat) (h : ∀ d ∈ ds, d < 10) :
    parseDecAux a (ds.map (fun d => d + 48)) =
      ds.foldl (fun x d => x * 10 + d) a := by
  induction ds generalizing a with
  | nil => rfl
  | cons d tl ih =>
      have hd : d < 10 := h d (List.mem_cons_self d tl)
      have hdig : isDigitByte (d + 48) = true := by
        simp only [isDigitByte, Bool.and_eq_true, decide_eq_true_eq]
        omega
      have harg : d + 48 - 48 = d := by omega
      have hstep : parseDecAux a ((d :: tl).map (fun x => x + 48)) =
          parseDecAux (a * 10 + (d + 48 - 48)) (tl.map (fun x => x + 48)) := by
        show (if isDigitByte (d + 48) then
            parseDecAux (a * 10 + (d + 48 - 48)) (tl.map (fun x => x + 48)) else a) = _
        rw [hdig]
        rfl
      rw [hstep, harg]
      exact ih (a * 10 + d) (fun x hx => h x (List.mem_cons_of_mem d hx))

theorem parseDecAux_zero_of_nondigit (l : List Nat)
    (h : ∀ b ∈ l, isDigitByte b = false) : parseDecAux 0 l = 0 := by
  cases l with
  | nil => rfl
  | cons b rest => simp [parseDecAux, h b (by simp)]

/-- `atoi` inverts the decimal printer on every nonnegative length. -/
theorem cAtoi_natToDecBytes (n : Nat) : cAtoi (natToDecBytes n) = n := by
  by_cases h0 : n = 0
  · subst h0
    decide
  · rw [natToDecBytes_eq_digits n h0]
    have hne : (Nat.digits 10 n).reverse ≠ [] := by
      simp [Nat.digits_ne_nil_iff_ne_zero, h0]
    obtain ⟨d, tl, hds⟩ := List.exists_cons_of_ne_nil hne
    have hmem : ∀ x ∈ (Nat.digits 10 n).reverse, x < 10 := by
      intro x hx
      exact Nat.digits_lt_base (by decide) (List.mem_reverse.mp hx)
    rw [hds]
    simp only [List.map_cons]
    have hdlt : d < 10 := hmem d (by rw [hds]; simp)
    rw [cAtoi, List.dropWhile_cons,
      if_neg (by simp [isSpaceByte])]
    rw [cAtoiCore, if_neg (by omega), if_neg (by omega)]
    have hmap : (d + 48) :: tl.map (fun x => x + 48) =
        ((d :: tl).map (fun x => x + 48)) := rfl
    rw [hmap, parseDecAux_digit_map (d :: tl) 0 (by rw [← hds]; exact hmem)]
    rw [← hds, foldl_step_reverse (Nat.digits 10 n) 0, Nat.ofDigits_digits]
    simp

/-! ## The wire protocol of EncodedData::send and encode_remotely -/

/-- `EncodedData::send` (lines 376-383): the ASCII decimal `_size`, the
NUL terminator (the `+ 1` in `s.str().length() + 1`), then the `_size`
raw bytes, all with the 30-second write-with-timeout discipline. -/
def encodedDataSendBytes (e : EncodedData) : List Nat :=
  natToDecBytes e.size ++ [0] ++ e.bytes

/-- Split an incoming stream at the first NUL: `read_indefinite` plus
`consume (strlen (buffer) + 1)` in `encode_remotely` (lines 330-332).
Modelled from the spec: the `Socket` class of util.h is outside these
sources; per spec section 4.4 the indefinite read fails with
`NetworkError` when the connection closes before the sentinel byte. -/
def splitAtNul : List Nat → Option (List Nat × List Nat)
  | [] => none
  | b :: rest =>
      if b = 0 then some ([], rest)
      else
        match splitAtNul rest with
        | none => none
        | some (h, t) => some (b :: h, t)

/-- The receive half of `DCPVideoFrame::encode_remotely` (lines 330-336):
read the NUL-terminated header, `atoi` it, allocate a
`RemotelyEncodedData` of that size and read exactly that many bytes.
Modelled from the spec: per section 4.4 the definite read
(`read_definite_and_consume`) fails with `NetworkError` when the stream
closes first.  (`atoi` results are nonnegative on every input the claims
touch; a negative size, whose `new uint8_t[s]` is undefined, is clamped
to 0 here.) -/
def recvEncodedData (stream : List Nat) : Except DCPError EncodedData :=
  match splitAtNul stream with
  | none => .error (.networkError "connection closed before response header")
  | some (hdr, rest) =>
      let n := (cAtoi hdr).toNat
      if rest.length < n then .error (.networkError "connection closed during payload")
      else .ok (.remoteData (rest.take n))

theorem splitAtNul_append (hdr tail : List Nat) (h : ∀ b ∈ hdr, b ≠ 0) :
    splitAtNul (hdr ++ 0 :: tail) = some (hdr, tail) := by
  induction hdr with
  | nil => simp [splitAtNul]
  | cons b tl ih =>
      have hb : b ≠ 0 := h b (by simp)
      have ih2 := ih (fun x hx => h x (by simp [hx]))
      simp only [List.cons_append, splitAtNul, if_neg hb, List.append_eq]
      rw [ih2]

/-- Receiving from a stream whose header is NUL-terminated: the header is
parsed with `atoi` and the payload read is checked against the remaining
stream length. -/
theorem recvEncodedData_split (hdr rest : List Nat) (hnul : ∀ b ∈ hdr, b ≠ 0) :
    recvEncodedData (hdr ++ 0 :: rest) =
      if rest.length < (cAtoi hdr).toNat then
        .error (.networkError "connection closed during payload")
      else .ok (.remoteData (rest.take (cAtoi hdr).toNat)) := by
  rw [recvEncodedData, splitAtNul_append hdr rest hnul]

/-- C7: round trip over the wire.  `send` emits the ASCII decimal length,
a NUL, then exactly the M payload bytes; the receiving client parses that
stream back into a receive-allocated `EncodedData` of length M with
byte-identical contents; and a stream whose payload is cut short of M
bytes fails with `NetworkError` instead of yielding the shorter data. -/
theorem C7_send_recv_roundtrip (e : EncodedData) (tail : List Nat) (k : Nat)
    (hk : k < e.size) :
    encodedDataSendBytes e = natToDecBytes e.size ++ [0] ++ e.bytes ∧
    recvEncodedData (encodedDataSendBytes e ++ tail) =
      .ok (.remoteData e.bytes) ∧
    recvEncodedData (natToDecBytes e.size ++ 0 :: e.bytes.take k) =
      .error (.networkError "connection closed during payload") := by
  have hsize : e.size = e.bytes.length := rfl
  refine ⟨rfl, ?_, ?_⟩
  · have hform : encodedDataSendBytes e ++ tail =
        natToDecBytes e.size ++ 0 :: (e.bytes ++ tail) := by
      rw [encodedDataSendBytes, List.append_assoc, List.append_assoc]
      rfl
    rw [hform, recvEncodedData_split _ _ (natToDecBytes_no_nul e.size),
      cAtoi_natToDecBytes, Int.toNat_natCast, if_neg (by simp [hsize]),
      hsize, List.take_left]
  · rw [recvEncodedData_split _ _ (natToDecBytes_no_nul e.size),
      cAtoi_natToDecBytes, Int.toNat_natCast, if_pos]
    rw [List.length_take]
    omega

/-- Witness for C7: the spec's own scenario — header "5" NUL plus 5 bytes
parses to those 5 bytes; the same header with only 3 payload bytes before
close fails with NetworkError. -/
theorem C7_send_recv_roundtrip_witness :
    encodedDataSendBytes (.remoteData [5, 6, 7, 8, 9]) =
      natToDecBytes (EncodedData.remoteData [5, 6, 7, 8, 9]).size ++ [0] ++
        (EncodedData.remoteData [5, 6, 7, 8, 9]).bytes ∧
    recvEncodedData (encodedDataSendBytes (.remoteData [5, 6, 7, 8, 9]) ++ []) =
      .ok (.remoteData (EncodedData.remoteData [5, 6, 7, 8, 9]).bytes) ∧
    recvEncodedData (natToDecBytes (EncodedData.remoteData [5, 6, 7, 8, 9]).size ++
        0 :: (EncodedData.remoteData [5, 6, 7, 8, 9]).bytes.take 3) =
      .error (.networkError "connection closed during payload") :=
  C7_send_recv_roundtrip (.remoteData [5, 6, 7, 8, 9]) [] 3 (by decide)

/-- C10: a NUL-terminated response header that is empty or contains no
leading decimal number is parsed by `atoi` as 0, and the client returns a
zero-length `EncodedData` as a success instead of failing with
`NetworkError`. -/
theorem C10_non_numeric_header_yields_empty (hdr tail : List Nat)
    (hnul : ∀ b ∈ hdr, b ≠ 0)
    (hnum : hdr = [] ∨ ∀ b ∈ hdr, isDigitByte b = false) :
    cAtoi hdr = 0 ∧
    recvEncodedData (hdr ++ 0 :: tail) = .ok (.remoteData []) := by
  have hz : cAtoi hdr = 0 := by
    rcases hnum with rfl | hnd
    · rfl
    · rw [cAtoi]
      have hsub : ∀ b ∈ hdr.dropWhile isSpaceByte, isDigitByte b = false :=
        fun b hb => hnd b ((List.dropWhile_sublist isSpaceByte).subset hb)
      cases hd : hdr.dropWhile isSpaceByte with
      | nil => rfl
      | cons b rest =>
          have hball : ∀ x ∈ b :: rest, isDigitByte x = false := by
            rw [← hd]
            exact hsub
          have hrest : ∀ x ∈ rest, isDigitByte x = false :=
            fun x hx => hball x (by simp [hx])
          have hb := hball b (by simp)
          rw [cAtoiCore]
          by_cases h43 : b = 43
          · simp [h43, parseDecAux_zero_of_nondigit rest hrest]
          · by_cases h45 : b = 45
            · simp [h43, h45, parseDecAux_zero_of_nondigit rest hrest]
            · simp [h43, h45, parseDecAux_zero_of_nondigit (b :: rest) hball]
  refine ⟨hz, ?_⟩
  rw [recvEncodedData_split _ _ hnul, hz]
  rfl

/-- Witness for C10: the header "abc" NUL followed by two stray bytes
returns an empty success. -/
theorem C10_non_numeric_header_yields_empty_witness :
    cAtoi [97, 98, 99] = 0 ∧
    recvEncodedData ([97, 98, 99] ++ 0 :: [1, 2]) = .ok (.remoteData []) :=
  C10_non_numeric_header_yields_empty [97, 98, 99] [1, 2] (by decide)
    (Or.inr (by decide))

/-! ## The remote-encode request (dcp_video_frame.cc lines 291-328) -/

/-- The external configuration singleton `Config::instance()`: the
values `encode_remotely` reads from it at encode time (lines 296,
317-318). -/
structure ConfigState where
  colourLutIndex : Int
  j2kBandwidth : Int
  serverPort : Int

/-- ASCII bytes of a string; every string the protocol sends is ASCII. -/
def strBytes (s : String) : List Nat := s.data.map Char.toNat

/-- The header fields in the order lines 307-322 stream them.  Note that
the colour-LUT index and bandwidth fields are read from
`Config::instance()` at encode time (lines 317-318), not from the
captured `_colour_lut_index` / `_j2k_bandwidth` members. -/
def requestFields (j : DCPVideoFrameRec) (cfg : ConfigState) : List (List Nat) :=
  [strBytes "encode",
   intToDecBytes j.input.width, intToDecBytes j.input.height,
   intToDecBytes j.input.pixFmt,
   intToDecBytes j.outWidth, intToDecBytes j.outHeight,
   intToDecBytes j.padding,
   strBytes j.scalerId,
   intToDecBytes j.frame,
   intToDecBytes j.framesPerSecond,
   strBytes (if j.postProcess = "" then "none" else j.postProcess),
   intToDecBytes cfg.colourLutIndex,
   intToDecBytes cfg.j2kBandwidth]
  ++ j.input.planes.map (fun pl => intToDecBytes pl.lineSize)

/-- The header text the stream of lines 307-322 builds: `"encode "`
followed by each subsequent value with `<< value << " "` — i.e. every
field, the line sizes included, is followed by one space. -/
def remoteHeaderBytes (j : DCPVideoFrameRec) (cfg : ConfigState) : List Nat :=
  ((requestFields j cfg).map (fun f => f ++ [32])).flatten

/-- Lines 326-328: after the header, each plane's
`line_size()[i] * lines(i)` leading bytes, in plane order, back to
back. -/
def planePayload (img : ImageModel) : List Nat :=
  (img.planes.map (fun pl => pl.bytes.take (pl.lineSize * pl.lines).toNat)).flatten

/-- The full request `encode_remotely` writes: the header bytes, the NUL
from `socket.write (..., s.str().length() + 1, ...)` (line 324), then
the plane bytes with no further delimiter. -/
def remoteRequestBytes (j : DCPVideoFrameRec) (cfg : ConfigState) : List Nat :=
  remoteHeaderBytes j cfg ++ [0] ++ planePayload j.input

/-- Space-separated join as the spec's grammar reads: one space between
consecutive fields, none at the end. -/
def sepJoin : List (List Nat) → List Nat
  | [] => []
  | [f] => f
  | f :: g :: t => f ++ 32 :: sepJoin (g :: t)

/-- The request as claim C8 words it: the space-separated fields,
a terminating NUL, then immediately the plane bytes. -/
def specRequestBytes (j : DCPVideoFrameRec) (cfg : ConfigState) : List Nat :=
  sepJoin (requestFields j cfg) ++ [0] ++ planePayload j.input

theorem flatten_trailing_space (l : List (List Nat)) (h : l ≠ []) :
    (l.map (fun f => f ++ [32])).flatten = sepJoin l ++ [32] := by
  induction l with
  | nil => cases h rfl
  | cons f t ih =>
      cases t with
      | nil => simp [sepJoin]
      | cons g t2 =>
          have ih2 := ih (by simp)
          rw [List.map_cons, List.flatten_cons, ih2]
          simp [sepJoin, List.append_assoc]

/-- The request the code sends is the spec-format request with one extra
space byte between the last field and the NUL. -/
theorem request_eq_sepJoin (j : DCPVideoFrameRec) (cfg : ConfigState) :
    remoteRequestBytes j cfg =
      sepJoin (requestFields j cfg) ++ 32 :: 0 :: planePayload j.input := by
  rw [remoteRequestBytes, remoteHeaderBytes,
    flatten_trailing_space _ (by simp [requestFields]),
    List.append_assoc, List.append_assoc]
  rfl

def sampleConfig : ConfigState :=
  { colourLutIndex := 0, j2kBandwidth := 125000000, serverPort := 6192 }

/-- C8 counterexample: the request the code sends is not the
space-separated field list directly followed by a NUL — the stream
appends `" "` after the last line-size field as well, so one extra space
byte precedes the NUL (the two byte strings differ in length by one). -/
theorem C8_trailing_space_counterexample :
    remoteRequestBytes sampleJob sampleConfig ≠
      specRequestBytes sampleJob sampleConfig := by
  intro hEq
  have h1 := congrArg List.length hEq
  rw [request_eq_sepJoin, specRequestBytes] at h1
  simp only [List.length_append, List.length_cons, List.length_nil,
    List.length_singleton] at h1
  omega

/-- C8 amended: the remote-encode request is the single `encode` header
line with its fields in the claimed order, every field — the last line
size included — followed by one space (so a trailing space precedes the
terminating NUL), followed immediately, with no extra delimiter, by each
plane's `line_size[i] * lines(i)` raw bytes in plane order. -/
theorem C8_request_format (j : DCPVideoFrameRec) (cfg : ConfigState)
    (hpl : ∀ pl ∈ j.input.planes,
      pl.bytes.length = (pl.lineSize * pl.lines).toNat) :
    remoteRequestBytes j cfg =
      sepJoin (requestFields j cfg) ++ 32 :: 0 :: planePayload j.input ∧
    planePayload j.input = (j.input.planes.map PlaneModel.bytes).flatten := by
  refine ⟨request_eq_sepJoin j cfg, ?_⟩
  rw [planePayload]
  congr 1
  apply List.map_congr_left
  intro pl hm
  rw [← hpl pl hm, List.take_of_length_le (le_refl _)]

/-- Witness for C8's amended theorem at a one-plane sample job. -/
theorem C8_request_format_witness :
    remoteRequestBytes sampleJob sampleConfig =
      sepJoin (requestFields sampleJob sampleConfig) ++
        32 :: 0 :: planePayload sampleJob.input ∧
    planePayload sampleJob.input =
      (sampleJob.input.planes.map PlaneModel.bytes).flatten :=
  C8_request_format sampleJob sampleConfig (by decide)

/-- A job constructed while the configuration held LUT index 0 and
bandwidth 250000000: the constructor captured those values. -/
def capturedJob : DCPVideoFrameRec :=
  { sampleJob with colourLutIndex := 0, j2kBandwidth := 250000000 }

def constructionConfig : ConfigState :=
  { colourLutIndex := 0, j2kBandwidth := 250000000, serverPort := 6192 }

/-- The configuration after an external change between construction and
encoding. -/
def changedConfig : ConfigState :=
  { colourLutIndex := 1, j2kBandwidth := 100000000, serverPort := 6192 }

/-- C9, at the failing input: the job captured LUT index 0 and bandwidth
250000000 at construction, yet the request `encode_remotely` sends
changes when the configuration is changed afterwards — lines 317-318
read `Config::instance()` at encode time instead of the captured
`_colour_lut_index` / `_j2k_bandwidth` — while the local path does use
the captured bandwidth regardless of any configuration state. -/
theorem C9_remote_reads_config_at_encode_time :
    capturedJob.colourLutIndex = 0 ∧
    capturedJob.j2kBandwidth = 250000000 ∧
    remoteRequestBytes capturedJob changedConfig ≠
      remoteRequestBytes capturedJob constructionConfig ∧
    encodeLocally capturedJob sampleTables [] ⟨true, true, [1]⟩ =
      .ok ([],
        ⟨maxCsLenCalc 250000000 24, maxCompSizeCalc (maxCsLenCalc 250000000 24)⟩,
        .localData [1]) := by
  exact ⟨rfl, rfl, by decide, by decide⟩
